import Mathlib

/-!
Verification of the OHLCV fetcher and tool-handler layer of the
crypto-indicators-mcp repository, shallowly embedded in Lean.

The embedded code is `src/utils/fetchOhlcvData.js` (the capability check,
the single provider call, response-shape validation, the column transpose,
and the uniform error wrapper), the startup exchange allow-list in the same
file, and the shared try/catch shape of every tool handler in
`src/indicators/*.js` and `src/strategies/*.js`.
-/

namespace CryptoMCP

/-- A JavaScript value, as far as the fetcher inspects one: `undefined` is
`undefined` (the result of indexing past the end of an array), `num` is a
numeric scalar, `list` is an array.  `Array.isArray` is true exactly on the
`list` constructor. -/
inductive JsVal where
  | undefined : JsVal
  | num : Int → JsVal
  | list : List JsVal → JsVal

/-- JS indexing `v[k]`: element `k` of an array, `undefined` past the end or
on a non-array. -/
def jsIndex : JsVal → Nat → JsVal
  | .list xs, k => xs.getD k .undefined
  | _, _ => .undefined

/-- A JS `Date` constructed from a raw timestamp field (`new Date(row[0])`);
it carries the field it was built from. -/
structure JsDate where
  time : JsVal

/-- The fetcher's output (`Asset` object): six column sequences, one entry
per bar. -/
structure PriceSeries where
  dates : List JsDate
  openings : List JsVal
  highs : List JsVal
  lows : List JsVal
  closings : List JsVal
  volumes : List JsVal

/-- The per-row validity check of the response loop: the row must be an
array (`Array.isArray(ohlcv[i])`) of length at least 6
(`ohlcv[i].length < 6` rejected). -/
def rowOk : JsVal → Bool
  | .list fields => decide (6 ≤ fields.length)
  | _ => false

/-- The validation loop `for (let i = 0; i < ohlcv.length; i++)`: index of
the first row failing `rowOk`, starting the count at `i`, or `none` when
every row passes. -/
def firstBadRow : List JsVal → Nat → Option Nat
  | [], _ => none
  | r :: rs, i => if rowOk r then firstBadRow rs (i + 1) else some i

/-- The returned object literal: each column is a `map` over the rows,
taking field 0 (as a `Date`), 1, 2, 3, 4, 5 respectively. -/
def toPriceSeries (rows : List JsVal) : PriceSeries where
  dates := rows.map fun r => ⟨jsIndex r 0⟩
  openings := rows.map fun r => jsIndex r 1
  highs := rows.map fun r => jsIndex r 2
  lows := rows.map fun r => jsIndex r 3
  closings := rows.map fun r => jsIndex r 4
  volumes := rows.map fun r => jsIndex r 5

/-- Message of the capability error thrown when
`!exchange.has["fetchOHLCV"]`. -/
def capabilityMsg (exid : String) : String :=
  exid ++ " does not support fetchOHLCV"

/-- Message thrown when the response is not an array or is empty. -/
def noDataMsg : String :=
  "No OHLCV data returned from exchange"

/-- Message thrown by the row loop at the first short or non-array row. -/
def malformedRowMsg (i : Nat) : String :=
  "Malformed OHLCV row at index " ++ toString i ++ ": expected 6 values"

/-- The uniform wrapper applied by the `catch` block:
`Failed to fetch OHLCV data: ${error.message}`. -/
def wrapMsg (m : String) : String :=
  "Failed to fetch OHLCV data: " ++ m

/-- Body of the `try` block of `fetchOhlcvData`, before the catch-and-wrap:
capability check, then the provider call's outcome (`.error` is an exception
thrown by `exchange.fetchOHLCV`), then response validation, then the
transpose.  A non-array or empty response and every short row raise the
corresponding message. -/
def fetchTryBody (hasFetchOHLCV : Bool) (exid : String)
    (outcome : Except String JsVal) : Except String PriceSeries :=
  if !hasFetchOHLCV then .error (capabilityMsg exid)
  else
    match outcome with
    | .error e => .error e
    | .ok ohlcv =>
      match ohlcv with
      | .list rows =>
        if rows.length = 0 then .error noDataMsg
        else
          match firstBadRow rows 0 with
          | some i => .error (malformedRowMsg i)
          | none => .ok (toPriceSeries rows)
      | _ => .error noDataMsg

/-- `fetchOhlcvData(symbol, timeframe, limit)`: the `try` body with every
error caught and re-thrown under the uniform prefix.  `hasFetchOHLCV` is
`exchange.has["fetchOHLCV"]`, `exid` the configured exchange identifier, and
`outcome` the result of the single `exchange.fetchOHLCV` call (`.error`
models a thrown provider exception, carrying its message). -/
def fetchOhlcvData (hasFetchOHLCV : Bool) (exid : String)
    (outcome : Except String JsVal) : Except String PriceSeries :=
  match fetchTryBody hasFetchOHLCV exid outcome with
  | .ok ps => .ok ps
  | .error e => .error (wrapMsg e)

/-- Operational run of one `fetchOhlcvData` invocation against a provider
modelled as a stream of call outcomes (`provider n` is what the `n`-th
network call would return).  The second component counts calls to
`exchange.fetchOHLCV`: the source performs the call once, after the
capability check and before validation, so a capability failure performs
zero calls and every other path exactly one. -/
def fetchOhlcvRun (hasFetchOHLCV : Bool) (exid : String)
    (provider : Nat → Except String JsVal) :
    Except String PriceSeries × Nat :=
  if !hasFetchOHLCV then (.error (wrapMsg (capabilityMsg exid)), 0)
  else (fetchOhlcvData hasFetchOHLCV exid (provider 0), 1)

/-- The whitelist `ALLOWED_EXCHANGES`, in source order. -/
def ALLOWED_EXCHANGES : List String :=
  ["binance", "kraken", "coinbase", "bybit", "okx",
   "kucoin", "gate", "huobi", "bitfinex", "mexc"]

/-- `const exid = process.env.EXCHANGE_NAME || "binance"`: an unset variable
is `none`; JS `||` treats the empty string as falsy, so it also falls back
to `"binance"`. -/
def configuredExid (envExchangeName : Option String) : String :=
  match envExchangeName with
  | none => "binance"
  | some s => if s = "" then "binance" else s

/-- Message of the startup configuration error: it names the offending
identifier and joins the allow-list with `", "`. -/
def unsupportedExchangeMsg (exid : String) : String :=
  "Unsupported exchange: \"" ++ exid ++ "\". Allowed: "
    ++ String.intercalate ", " ALLOWED_EXCHANGES

/-- Module-load sequence of `fetchOhlcvData.js`: resolve the identifier,
reject it if it is not allow-listed (throwing before `new ccxt[exid]` runs),
otherwise construct the provider client for it.  `.ok exid` means a client
for `exid` was constructed; `.error` means startup failed and no client
exists. -/
def startup (envExchangeName : Option String) : Except String String :=
  let exid := configuredExid envExchangeName
  if ALLOWED_EXCHANGES.contains exid then .ok exid
  else .error (unsupportedExchangeMsg exid)

/-- One `content` entry of a tool result: `{ type: "text", text: ... }`. -/
structure ContentItem where
  type : String
  text : String

/-- A tool handler's return value: `{ content: [...] }`. -/
structure ToolResult where
  content : List ContentItem

/-- The shared shape of every tool handler in the repository:
`try { asset = await fetchOhlcvData(...); result = indicator(asset);
return text(JSON.stringify(result)) } catch (e) { return text("Error: " +
e.message) }`.  `fetched` is the fetch outcome and `indicator` the
indicator-library computation on the asset, returning its serialized result
or throwing with a message. -/
def toolHandler (fetched : Except String PriceSeries)
    (indicator : PriceSeries → Except String String) : ToolResult :=
  match fetched with
  | .error e => ⟨[⟨"text", "Error: " ++ e⟩]⟩
  | .ok asset =>
    match indicator asset with
    | .error e => ⟨[⟨"text", "Error: " ++ e⟩]⟩
    | .ok serialized => ⟨[⟨"text", serialized⟩]⟩

/-- The validation loop accepts a list all of whose rows pass `rowOk`,
whatever the running index. -/
theorem firstBadRow_eq_none (rows : List JsVal)
    (h : ∀ r ∈ rows, rowOk r = true) : ∀ i, firstBadRow rows i = none := by
  induction rows with
  | nil => intro i; rfl
  | cons r rs ih =>
    intro i
    have hr : rowOk r = true := h r (List.mem_cons_self r rs)
    simp only [firstBadRow, hr, if_true]
    exact ih (fun x hx => h x (List.mem_cons_of_mem r hx)) (i + 1)

/-- The validation loop stops at the first failing row: if row `i` fails
`rowOk` and every earlier row passes, the loop started at `s` reports
`s + i`. -/
theorem firstBadRow_eq_some (rows : List JsVal) (i : Nat)
    (hi : i < rows.length)
    (hbad : rowOk (rows.getD i .undefined) = false)
    (hok : ∀ j, j < i → rowOk (rows.getD j .undefined) = true) :
    ∀ s, firstBadRow rows s = some (s + i) := by
  induction rows generalizing i with
  | nil => simp at hi
  | cons r rs ih =>
    intro s
    cases i with
    | zero =>
      have hr : rowOk r = false := hbad
      simp [firstBadRow, hr]
    | succ k =>
      have hr : rowOk r = true := hok 0 (Nat.succ_pos k)
      have h1 : firstBadRow rs (s + 1) = some ((s + 1) + k) :=
        ih k (by simpa using hi) hbad (fun j hj => hok (j + 1) (by omega)) (s + 1)
      simp only [firstBadRow, hr, if_true, h1]
      congr 1
      omega

/-- `getD` of a mapped list at an in-range index is the function applied to
`getD` of the original list, for any defaults. -/
theorem getD_map_lt {α β : Type} (g : α → β) (l : List α) (i : Nat)
    (h : i < l.length) (d : β) (d0 : α) :
    (l.map g).getD i d = g (l.getD i d0) := by
  induction l generalizing i with
  | nil => simp at h
  | cons a t ih =>
    cases i with
    | zero => rfl
    | succ k => simpa using ih k (by simpa using h)

/-- C5: a provider response that is an empty sequence, or not list-shaped at
all (a scalar, or `undefined`), makes `fetchOhlcvData` fail with the wrapped
malformed-response message; the result is an error value, never a partial
series. -/
theorem c5_empty_or_nonlist_fails : ∀ exid : String,
    fetchOhlcvData true exid (.ok (.list [])) = .error (wrapMsg noDataMsg) ∧
    (∀ n : Int,
      fetchOhlcvData true exid (.ok (.num n)) = .error (wrapMsg noDataMsg)) ∧
    fetchOhlcvData true exid (.ok .undefined) = .error (wrapMsg noDataMsg) :=
  fun _ => ⟨rfl, fun _ => rfl, rfl⟩

/-- C6: when the configured provider does not declare `fetchOHLCV` support,
the run fails with the wrapped capability error naming the provider
identifier, and the request counter is 0 — no network call is issued. -/
theorem c6_capability_error_no_request :
    ∀ (exid : String) (provider : Nat → Except String JsVal),
      fetchOhlcvRun false exid provider =
        (.error (wrapMsg (capabilityMsg exid)), 0) :=
  fun _ _ => rfl

/-- C10: with `EXCHANGE_NAME` unset the identifier defaults to `"binance"`,
which is allow-listed, so startup constructs the client for `"binance"`. -/
theorem c10_default_binance :
    configuredExid none = "binance" ∧
    "binance" ∈ ALLOWED_EXCHANGES ∧
    startup none = .ok "binance" :=
  ⟨rfl, by decide, rfl⟩

/-- C7 counterexample: the identifier `""` is configured (the environment
variable is set) and is not in the allow-list, yet no configuration error is
raised — startup constructs a client for `"binance"` instead, because the
source's `||` default treats the empty string as unset. -/
theorem c7_empty_exid_counterexample :
    "" ∉ ALLOWED_EXCHANGES ∧ startup (some "") = .ok "binance" :=
  ⟨by decide, rfl⟩

/-- C7 (amended): a non-empty configured identifier outside the allow-list
makes startup fail with the configuration error naming it and listing the
allowed identifiers, and no client is constructed; and whenever startup does
construct a client, its identifier is allow-listed — the process never
proceeds with an arbitrary identifier. -/
theorem c7_allowlist_enforced :
    (∀ s : String, s ≠ "" → s ∉ ALLOWED_EXCHANGES →
        startup (some s) = .error (unsupportedExchangeMsg s)) ∧
    (∀ (env : Option String) (exid : String),
        startup env = .ok exid → exid ∈ ALLOWED_EXCHANGES) := by
  constructor
  · intro s hne hnm
    have hc : configuredExid (some s) = s := by simp [configuredExid, hne]
    unfold startup
    rw [hc, if_neg (by simpa using hnm)]
  · intro env exid h
    unfold startup at h
    dsimp only at h
    split at h
    next hcond =>
      injection h with h2
      subst h2
      simpa using hcond
    next => exact (Except.noConfusion h)

/-- C7 witness: the concrete identifier `"not-a-real-exchange"` is rejected
at startup with the configuration error naming it. -/
theorem c7_allowlist_enforced_witness :
    startup (some "not-a-real-exchange") =
      .error (unsupportedExchangeMsg "not-a-real-exchange") :=
  c7_allowlist_enforced.1 "not-a-real-exchange" (by decide) (by decide)

/-- C3: whenever `fetchOhlcvData` fails, the surfaced message is exactly
`"Failed to fetch OHLCV data: "` followed by the original failure's message
(the error produced inside the `try` body), and when that original failure
is an exception thrown by the provider call itself, the original message is
the provider exception's message. -/
theorem c3_uniform_error_wrapping (hasCap : Bool) (exid : String)
    (outcome : Except String JsVal) (e : String)
    (hfail : fetchOhlcvData hasCap exid outcome = .error e) :
    ∃ orig : String,
      fetchTryBody hasCap exid outcome = .error orig ∧
      e = wrapMsg orig ∧
      (hasCap = true → ∀ oe : String, outcome = .error oe → orig = oe) := by
  cases htb : fetchTryBody hasCap exid outcome with
  | ok ps =>
    unfold fetchOhlcvData at hfail
    rw [htb] at hfail
    exact (Except.noConfusion hfail)
  | error m =>
    refine ⟨m, rfl, ?_, ?_⟩
    · unfold fetchOhlcvData at hfail
      rw [htb] at hfail
      injection hfail with h2
      exact h2.symm
    · intro hc oe ho
      subst hc
      subst ho
      have : fetchTryBody true exid (Except.error oe) = Except.error oe := rfl
      rw [this] at htb
      injection htb with h3
      exact h3.symm

/-- C3 witness: a provider exception with message `"network down"` surfaces
wrapped under the uniform prefix. -/
theorem c3_uniform_error_wrapping_witness :
    ∃ orig : String,
      fetchTryBody true "binance" (Except.error "network down") = .error orig ∧
      wrapMsg "network down" = wrapMsg orig ∧
      (true = true → ∀ oe : String,
        (Except.error "network down" : Except String JsVal) = .error oe →
          orig = oe) :=
  c3_uniform_error_wrapping true "binance" (.error "network down")
    (wrapMsg "network down") rfl

/-- C8 counterexample: an invocation against a provider without
historical-bar support issues zero network requests, not one, so "every
invocation issues exactly one network request" fails as stated. -/
theorem c8_zero_requests_counterexample :
    (fetchOhlcvRun false "binance" (fun _ => .ok .undefined)).2 = 0 ∧
    (fetchOhlcvRun false "binance" (fun _ => .ok .undefined)).2 ≠ 1 :=
  ⟨rfl, by decide⟩

/-- C8 (amended): an invocation that passes the capability check issues
exactly one call to `exchange.fetchOHLCV` and one that fails it issues none
— never more than one, with no retries — and the run's outcome depends only
on the arguments and the provider's single (first) response. -/
theorem c8_single_request_no_retry :
    (∀ (hasCap : Bool) (exid : String)
        (provider : Nat → Except String JsVal),
        (fetchOhlcvRun hasCap exid provider).2 = (if hasCap then 1 else 0) ∧
        (fetchOhlcvRun hasCap exid provider).2 ≤ 1) ∧
    (∀ (hasCap : Bool) (exid : String)
        (p q : Nat → Except String JsVal), p 0 = q 0 →
        fetchOhlcvRun hasCap exid p = fetchOhlcvRun hasCap exid q) := by
  constructor
  · intro hasCap exid provider
    cases hasCap <;> simp [fetchOhlcvRun]
  · intro hasCap exid p q h
    cases hasCap <;> simp [fetchOhlcvRun, h]

/-- C8 witness: two providers agreeing on their first response yield
identical runs. -/
theorem c8_single_request_no_retry_witness :
    fetchOhlcvRun true "binance" (fun _ => .ok .undefined) =
      fetchOhlcvRun true "binance"
        (fun n => if n = 0 then Except.ok JsVal.undefined
                  else Except.error "second call") :=
  c8_single_request_no_retry.2 true "binance" _ _ rfl

/-- C9: the shared handler shape catches every error — whether the fetch
fails or the indicator computation fails — and returns the textual payload
`"Error: " ++ message`; it returns a `ToolResult` value in all cases rather
than propagating a fault. -/
theorem c9_handler_wraps_errors (fetched : Except String PriceSeries)
    (indicator : PriceSeries → Except String String) :
    (∀ e : String, fetched = .error e →
        toolHandler fetched indicator = ⟨[⟨"text", "Error: " ++ e⟩]⟩) ∧
    (∀ (asset : PriceSeries) (e : String), fetched = .ok asset →
        indicator asset = .error e →
        toolHandler fetched indicator = ⟨[⟨"text", "Error: " ++ e⟩]⟩) := by
  constructor
  · intro e he
    subst he
    rfl
  · intro asset e hf hi
    subst hf
    simp [toolHandler, hi]

/-- C9 witness: a failed fetch with message `"boom"` yields the payload
`"Error: boom"`. -/
theorem c9_handler_wraps_errors_witness :
    toolHandler (.error "boom") (fun _ => .ok "[1,2]") =
      ⟨[⟨"text", "Error: boom"⟩]⟩ :=
  (c9_handler_wraps_errors (.error "boom") (fun _ => .ok "[1,2]")).1 "boom" rfl

/-- A successful `try` body can only come from the transpose branch: the
series is `toPriceSeries` of a non-empty row list. -/
theorem fetchTryBody_ok (hasCap : Bool) (exid : String)
    (outcome : Except String JsVal) (ps : PriceSeries)
    (h : fetchTryBody hasCap exid outcome = .ok ps) :
    ∃ rows : List JsVal, ps = toPriceSeries rows ∧ rows.length ≠ 0 := by
  unfold fetchTryBody at h
  split at h
  · exact Except.noConfusion h
  · split at h
    · exact Except.noConfusion h
    · split at h
      · split at h
        · exact Except.noConfusion h
        · split at h
          · exact Except.noConfusion h
          · injection h with h2
            exact ⟨_, h2.symm, by omega⟩
      · exact Except.noConfusion h

/-- C1: on a well-formed response — every row an array of at least six
fields, at least one row — the fetch succeeds and returns the transposed
series: each of the six columns has length exactly `N = rows.length`, and
entry `i` of each column is the corresponding field of row `i` (field 0 as
the constructed timestamp, fields 1–5 as open, high, low, close, volume),
in original row order. -/
theorem c1_wellformed_transpose (exid : String) (rows : List (List JsVal))
    (hne : rows ≠ []) (hlen : ∀ r ∈ rows, 6 ≤ r.length) :
    ∃ ps : PriceSeries,
      fetchOhlcvData true exid (.ok (.list (rows.map JsVal.list))) = .ok ps ∧
      ps.dates.length = rows.length ∧
      ps.openings.length = rows.length ∧
      ps.highs.length = rows.length ∧
      ps.lows.length = rows.length ∧
      ps.closings.length = rows.length ∧
      ps.volumes.length = rows.length ∧
      (∀ i : Nat, i < rows.length →
        ps.dates.getD i ⟨JsVal.undefined⟩ =
          ⟨(rows.getD i []).getD 0 JsVal.undefined⟩ ∧
        ps.openings.getD i JsVal.undefined = (rows.getD i []).getD 1 JsVal.undefined ∧
        ps.highs.getD i JsVal.undefined = (rows.getD i []).getD 2 JsVal.undefined ∧
        ps.lows.getD i JsVal.undefined = (rows.getD i []).getD 3 JsVal.undefined ∧
        ps.closings.getD i JsVal.undefined = (rows.getD i []).getD 4 JsVal.undefined ∧
        ps.volumes.getD i JsVal.undefined =
          (rows.getD i []).getD 5 JsVal.undefined) := by
  have hallok : ∀ r ∈ rows.map JsVal.list, rowOk r = true := by
    intro r hr
    obtain ⟨fs, hfs, rfl⟩ := List.mem_map.1 hr
    simp only [rowOk, decide_eq_true_eq]
    exact hlen fs hfs
  have hfb : firstBadRow (rows.map JsVal.list) 0 = none :=
    firstBadRow_eq_none _ hallok 0
  have hlen0 : ¬((rows.map JsVal.list).length = 0) := by
    simp only [List.length_map, List.length_eq_zero]
    exact hne
  have htb : fetchTryBody true exid (.ok (.list (rows.map JsVal.list)))
      = .ok (toPriceSeries (rows.map JsVal.list)) := by
    simp [fetchTryBody, hfb, hlen0, hne]
  have hcol : ∀ (i k : Nat), i < rows.length →
      ((rows.map JsVal.list).map (fun r => jsIndex r k)).getD i JsVal.undefined
        = (rows.getD i []).getD k JsVal.undefined := by
    intro i k hi
    rw [List.map_map]
    exact getD_map_lt _ rows i hi _ []
  have hdate : ∀ i : Nat, i < rows.length →
      ((rows.map JsVal.list).map
          (fun r => (⟨jsIndex r 0⟩ : JsDate))).getD i ⟨JsVal.undefined⟩
        = ⟨(rows.getD i []).getD 0 JsVal.undefined⟩ := by
    intro i hi
    rw [List.map_map]
    exact getD_map_lt _ rows i hi _ []
  refine ⟨toPriceSeries (rows.map JsVal.list),
    ?_, ?_, ?_, ?_, ?_, ?_, ?_, ?_⟩
  · unfold fetchOhlcvData
    rw [htb]
  · simp [toPriceSeries]
  · simp [toPriceSeries]
  · simp [toPriceSeries]
  · simp [toPriceSeries]
  · simp [toPriceSeries]
  · simp [toPriceSeries]
  · intro i hi
    exact ⟨hdate i hi, hcol i 1 hi, hcol i 2 hi,
      hcol i 3 hi, hcol i 4 hi, hcol i 5 hi⟩

/-- C1 witness: a one-row response with six fields transposes into six
singleton columns holding those fields. -/
theorem c1_wellformed_transpose_witness :
    ∃ ps : PriceSeries,
      fetchOhlcvData true "binance"
        (.ok (.list (([[.num 10, .num 1, .num 2, .num 3, .num 4, .num 5]] :
            List (List JsVal)).map JsVal.list))) = .ok ps ∧
      ps.dates.length = 1 ∧ ps.openings.length = 1 ∧ ps.highs.length = 1 ∧
      ps.lows.length = 1 ∧ ps.closings.length = 1 ∧ ps.volumes.length = 1 ∧
      (∀ i : Nat, i < 1 →
        ps.dates.getD i ⟨JsVal.undefined⟩ =
          ⟨(([[.num 10, .num 1, .num 2, .num 3, .num 4, .num 5]] :
            List (List JsVal)).getD i []).getD 0 JsVal.undefined⟩ ∧
        ps.openings.getD i JsVal.undefined =
          (([[.num 10, .num 1, .num 2, .num 3, .num 4, .num 5]] :
            List (List JsVal)).getD i []).getD 1 JsVal.undefined ∧
        ps.highs.getD i JsVal.undefined =
          (([[.num 10, .num 1, .num 2, .num 3, .num 4, .num 5]] :
            List (List JsVal)).getD i []).getD 2 JsVal.undefined ∧
        ps.lows.getD i JsVal.undefined =
          (([[.num 10, .num 1, .num 2, .num 3, .num 4, .num 5]] :
            List (List JsVal)).getD i []).getD 3 JsVal.undefined ∧
        ps.closings.getD i JsVal.undefined =
          (([[.num 10, .num 1, .num 2, .num 3, .num 4, .num 5]] :
            List (List JsVal)).getD i []).getD 4 JsVal.undefined ∧
        ps.volumes.getD i JsVal.undefined =
          (([[.num 10, .num 1, .num 2, .num 3, .num 4, .num 5]] :
            List (List JsVal)).getD i []).getD 5 JsVal.undefined) :=
  c1_wellformed_transpose "binance"
    [[.num 10, .num 1, .num 2, .num 3, .num 4, .num 5]]
    (List.cons_ne_nil _ _) (by decide)

/-- C2: every invocation either succeeds with a series satisfying the data
model invariant — all six columns of identical length, at least 1 — or
fails with an error value carrying only a message; no partial series is
ever returned. -/
theorem c2_invariant_or_error (hasCap : Bool) (exid : String)
    (outcome : Except String JsVal) :
    (∃ ps : PriceSeries,
        fetchOhlcvData hasCap exid outcome = .ok ps ∧
        ps.openings.length = ps.dates.length ∧
        ps.highs.length = ps.dates.length ∧
        ps.lows.length = ps.dates.length ∧
        ps.closings.length = ps.dates.length ∧
        ps.volumes.length = ps.dates.length ∧
        1 ≤ ps.dates.length) ∨
    (∃ e : String, fetchOhlcvData hasCap exid outcome = .error e) := by
  cases htb : fetchTryBody hasCap exid outcome with
  | error m =>
    right
    refine ⟨wrapMsg m, ?_⟩
    unfold fetchOhlcvData
    rw [htb]
  | ok ps =>
    left
    obtain ⟨rows, hps, hlen⟩ := fetchTryBody_ok hasCap exid outcome ps htb
    subst hps
    refine ⟨toPriceSeries rows, ?_, ?_, ?_, ?_, ?_, ?_, ?_⟩
    · unfold fetchOhlcvData
      rw [htb]
    all_goals simp [toPriceSeries]
    omega

/-- C4: a response whose row `i` is the first with fewer than six fields
(all earlier rows well-formed) fails with the malformed-row error naming
index `i`, under the uniform prefix. -/
theorem c4_malformed_row_first_index (exid : String)
    (rows : List (List JsVal)) (i : Nat) (hi : i < rows.length)
    (hshort : (rows.getD i []).length < 6)
    (hfirst : ∀ j, j < i → 6 ≤ (rows.getD j []).length) :
    fetchOhlcvData true exid (.ok (.list (rows.map JsVal.list))) =
      .error (wrapMsg (malformedRowMsg i)) := by
  have hgd : ∀ j, j < rows.length →
      (rows.map JsVal.list).getD j JsVal.undefined
        = JsVal.list (rows.getD j []) := by
    intro j hj
    exact getD_map_lt JsVal.list rows j hj JsVal.undefined []
  have hbad : rowOk ((rows.map JsVal.list).getD i JsVal.undefined) = false := by
    rw [hgd i hi]
    simp only [rowOk, decide_eq_false_iff_not]
    omega
  have hok : ∀ j, j < i →
      rowOk ((rows.map JsVal.list).getD j JsVal.undefined) = true := by
    intro j hj
    rw [hgd j (lt_trans hj hi)]
    simp only [rowOk, decide_eq_true_eq]
    exact hfirst j hj
  have hfb : firstBadRow (rows.map JsVal.list) 0 = some i := by
    have h0 := firstBadRow_eq_some (rows.map JsVal.list) i
      (by simpa using hi) hbad hok 0
    simpa using h0
  have hlen0 : ¬((rows.map JsVal.list).length = 0) := by
    simp only [List.length_map]
    omega
  have hne : rows ≠ [] := by
    intro hr
    subst hr
    simp at hi
  have htb : fetchTryBody true exid (.ok (.list (rows.map JsVal.list)))
      = .error (malformedRowMsg i) := by
    simp [fetchTryBody, hfb, hlen0, hne]
  unfold fetchOhlcvData
  rw [htb]

/-- C4 witness: a four-row response whose row 3 has only four fields is
rejected with the error naming index 3. -/
theorem c4_malformed_row_first_index_witness :
    fetchOhlcvData true "binance"
      (.ok (.list (([[.num 0, .num 1, .num 2, .num 3, .num 4, .num 5],
                    [.num 0, .num 1, .num 2, .num 3, .num 4, .num 5],
                    [.num 0, .num 1, .num 2, .num 3, .num 4, .num 5],
                    [.num 0, .num 1, .num 2, .num 3]] :
          List (List JsVal)).map JsVal.list))) =
      .error (wrapMsg (malformedRowMsg 3)) :=
  c4_malformed_row_first_index "binance" _ 3 (by decide) (by decide)
    (by decide)

end CryptoMCP
